import Mathlib

/-!
The reconciliation and publishing driver of medium-auto-post.

A shallow embedding of `pkg/mediumAutoPost` (`public.go`, `private.go`; the
legacy `main.go` carries verbatim copies of the same functions).

Go strings are Lean `String`s, Go slices are `List`s, a Go `error` is
`Option Error` (`none` is `nil`) where `Error` is the text `err.Error()`
returns.  Everything outside the repository (HTTP, the Medium SDK, the GitHub
client, the file system, the JSON codec, the clock) is a field of
`Collaborators`, threaded through an explicit world state `σ`.  Log lines are
not modelled, except that the publish loop returns the list of its per-entry
results, which is what it logs.
-/

set_option autoImplicit false

namespace MediumAutoPost

/-! ## Data model (`public.go`) -/

/-- The message of a Go `error` value. -/
abbrev Error := String

/-- Go `type StorageType int`. -/
abbrev StorageType := Int

/-- Go `File StorageType = iota`. -/
def File : StorageType := 0

/-- Go `Github` (the second constant of the `iota` block). -/
def Github : StorageType := 1

/-- The SDK type `medium.User`; the program reads only `ID`. -/
structure User where
  ID : String
  deriving DecidableEq, Repr

/-- The SDK client `*medium.Medium` built by `NewClientWithAccessToken`. -/
structure Medium where
  AccessToken : String
  deriving DecidableEq, Repr

/-- Go `Config`; `MediumUser` is a pointer, `none` is `nil`. -/
structure Config where
  StorageType : StorageType
  StorageFile : String
  MediumEndpointPrefix : String
  MediumBearerToken : String
  WebsiteJSONIndexURL : String
  GithubPersonalToken : String
  GithubStatusRepoOwner : String
  GithubStatusRepo : String
  MediumUser : Option User
  deriving DecidableEq, Repr

/-- Go `PublishedArticle`; `Post` stands for the SDK type `medium.Post`,
which the program stores without looking inside. -/
structure PublishedArticle (Post : Type) where
  URL : String
  ID : String
  PublishTimestamp : String
  MediumPostResponse : Post
  deriving DecidableEq, Repr

/-- Go `ArticleIndexItem`. -/
structure ArticleIndexItem where
  URL : String
  ID : String
  deriving DecidableEq, Repr

/-- Go `ArticleJSONData`. -/
structure ArticleJSONData where
  Title : String
  ContentFormat : String
  Content : String
  CanonicalURL : String
  Tags : List String
  deriving DecidableEq, Repr

/-! ## Reconciler (`private.go`, `eliminateArticlesThatHaveAlreadyBeenPosted`) -/

/-- The inner loop of `eliminateArticlesThatHaveAlreadyBeenPosted`: scan
`alreadyPublished` from the front, `found = true; break` at the first record
whose `ID` equals `id`; `found` stays `false` when the scan runs out. -/
def eliminateArticlesThatHaveAlreadyBeenPosted.found {Post : Type}
    (id : String) : List (PublishedArticle Post) → Bool
  | [] => false
  | alreadyPostedValue :: rest =>
    if alreadyPostedValue.ID = id then true
    else eliminateArticlesThatHaveAlreadyBeenPosted.found id rest

/-- The outer loop of `eliminateArticlesThatHaveAlreadyBeenPosted`, with the
slice `articlesThatNeedPostedToMedium` as accumulator. -/
def eliminateArticlesThatHaveAlreadyBeenPosted.loop {Post : Type}
    (alreadyPublished : List (PublishedArticle Post)) :
    List ArticleIndexItem → List ArticleIndexItem → List ArticleIndexItem
  | [], articlesThatNeedPostedToMedium => articlesThatNeedPostedToMedium
  | article :: rest, articlesThatNeedPostedToMedium =>
    if article.ID = "" then
      eliminateArticlesThatHaveAlreadyBeenPosted.loop alreadyPublished rest
        articlesThatNeedPostedToMedium
    else
      let found := eliminateArticlesThatHaveAlreadyBeenPosted.found article.ID alreadyPublished
      if !found then
        eliminateArticlesThatHaveAlreadyBeenPosted.loop alreadyPublished rest
          (articlesThatNeedPostedToMedium ++ [article])
      else
        eliminateArticlesThatHaveAlreadyBeenPosted.loop alreadyPublished rest
          articlesThatNeedPostedToMedium

/-- Go `eliminateArticlesThatHaveAlreadyBeenPosted`. -/
def eliminateArticlesThatHaveAlreadyBeenPosted {Post : Type}
    (alreadyPublished : List (PublishedArticle Post))
    (allArticlesOnWebsite : List ArticleIndexItem) : List ArticleIndexItem :=
  eliminateArticlesThatHaveAlreadyBeenPosted.loop alreadyPublished allArticlesOnWebsite []

/-- The work set as the specification words it: the index entries, in order,
whose id is non-empty and equals the id of no prior record. -/
def workSetSpec {Post : Type} (P : List (PublishedArticle Post))
    (C : List ArticleIndexItem) : List ArticleIndexItem :=
  C.filter (fun a => decide (a.ID ≠ "" ∧ ∀ p ∈ P, p.ID ≠ a.ID))

/-! ## Doubles of the Go standard library -/

/-- Does `s` begin with `t`? -/
def startsWith : List Char → List Char → Bool
  | _, [] => true
  | [], _ :: _ => false
  | c :: s, d :: t => c == d && startsWith s t

/-- Does `sub` occur in `s` as a contiguous block? -/
def containsChars : List Char → List Char → Bool
  | [], sub => startsWith [] sub
  | c :: s, sub => startsWith (c :: s) sub || containsChars s sub

/-- Go `strings.Contains`: reports whether `substr` is within `s`. -/
def strings.Contains (s substr : String) : Bool :=
  containsChars s.data substr.data

/-- An `io.ReadCloser` (a response body, a downloaded file), given by what
reading it to the end yields: the bytes and the read error, if any. -/
structure ReadCloser where
  data : String
  err : Option Error
  deriving DecidableEq, Repr

/-- Go `ioutil.ReadAll`. -/
def ioutil.ReadAll (r : ReadCloser) : String × Option Error :=
  (r.data, r.err)

/-- Go `*http.Response`; the program reads only `Body`. -/
structure Response where
  Body : ReadCloser
  deriving DecidableEq, Repr

/-- The SDK type `medium.CreatePostOptions`, with the fields the program sets. -/
structure CreatePostOptions where
  UserID : String
  Title : String
  Content : String
  ContentFormat : String
  Tags : List String
  CanonicalURL : String
  PublishStatus : String
  deriving DecidableEq, Repr

/-- What the program reads of a `*github.Branch`: `branch.Commit.SHA` and
`branch.Commit.Commit.Tree.SHA`. -/
structure Branch where
  CommitSHA : String
  TreeSHA : String
  deriving DecidableEq, Repr

/-- Go `github.TreeEntry`, with the fields the program sets. -/
structure TreeEntry where
  Path : String
  Mode : String
  Type_ : String
  SHA : String
  deriving DecidableEq, Repr

/-- The world outside the repository.  `σ` is the state of that world; every
call that can change it, or whose answer can change from call to call, takes
the state and returns the next one.  The three `unmarshal` fields are
`json.Unmarshal` at the three destination types, each into a fresh (empty)
destination: they return what the destination holds afterwards together with
the returned error. -/
structure Collaborators (σ Post : Type) where
  Get : String → σ → Except Error Response × σ
  unmarshalArticle : String → ArticleJSONData × Option Error
  unmarshalIndex : String → List ArticleIndexItem × Option Error
  unmarshalPublished : String → List (PublishedArticle Post) × Option Error
  MarshalIndent : List (PublishedArticle Post) → String × Option Error
  GetUser : Medium → String → σ → Except Error User × σ
  CreatePost : Medium → CreatePostOptions → σ → Except Error Post × σ
  Now : σ → String × σ
  ReadFile : String → σ → Except Error String × σ
  WriteFile : String → String → Nat → σ → Option Error × σ
  DownloadContents : String → String → String → String → String → σ →
    Except Error ReadCloser × σ
  GetBranch : String → String → String → String → σ → Except Error Branch × σ
  CreateBlob : String → String → String → String → σ → Except Error String × σ
  CreateTree : String → String → String → String → List TreeEntry → σ →
    Except Error String × σ
  CreateCommit : String → String → String → String → String → String → σ →
    Except Error String × σ
  UpdateRef : String → String → String → String → String → Bool → σ → Option Error × σ
  godotenvLoad : String → σ → Option Error × σ
  Getenv : String → σ → String

/-! ## Publisher driver (`private.go`, `postArticleToMedium`) -/

/-- Go `postArticleToMedium`.  The slice behind the pointer `publishedArticles`
is passed in and its value at return is passed out, next to the returned
error.  `none` is the run-time panic of `c.MediumUser.ID` on a nil
`MediumUser`.  The `http.Client` argument is the zero client, whose `Get` is
`env.Get`. -/
def postArticleToMedium {σ Post : Type} (env : Collaborators σ Post) (c : Config)
    (a : ArticleIndexItem) (publishedArticles : List (PublishedArticle Post))
    (mediumClient : Medium) (w : σ) :
    Option ((Option Error × List (PublishedArticle Post)) × σ) :=
  match env.Get a.URL w with
  | (.error err, w1) => some ((some err, publishedArticles), w1)
  | (.ok resp, w1) =>
    match ioutil.ReadAll resp.Body with
    | (_, some err) => some ((some err, publishedArticles), w1)
    | (jsonIndexData, none) =>
      match env.unmarshalArticle jsonIndexData with
      | (_, some err) => some ((some err, publishedArticles), w1)
      | (article, none) =>
        match c.MediumUser with
        | none => none
        | some user =>
          match env.CreatePost mediumClient
              { UserID := user.ID
                Title := article.Title
                Content := article.Content
                ContentFormat := article.ContentFormat
                Tags := article.Tags
                CanonicalURL := article.CanonicalURL
                PublishStatus := "draft" } w1 with
          | (.error err, w2) =>
            some ((some ("error when posting article " ++ article.Title ++ ": " ++ err),
              publishedArticles), w2)
          | (.ok result, w2) =>
            match env.Now w2 with
            | (now, w3) =>
              some ((none, publishedArticles ++
                [{ URL := article.CanonicalURL
                   ID := a.ID
                   PublishTimestamp := now
                   MediumPostResponse := result }]), w3)

/-! ## Index fetcher (`private.go`, `fetchArticleIndexFromSite`) -/

/-- Go `fetchArticleIndexFromSite`.  The value `json.Unmarshal` returns is
dropped by the source (the call is a statement), so the `err` tested after it
is still the one `ioutil.ReadAll` returned. -/
def fetchArticleIndexFromSite {σ Post : Type} (env : Collaborators σ Post) (c : Config)
    (w : σ) : (List ArticleIndexItem × Option Error) × σ :=
  match env.Get c.WebsiteJSONIndexURL w with
  | (.error err, w1) => (([], some err), w1)
  | (.ok resp, w1) =>
    match ioutil.ReadAll resp.Body with
    | (_, some err) => (([], some err), w1)
    | (jsonIndexData, none) =>
      let err : Option Error := none
      match env.unmarshalIndex jsonIndexData with
      | (indexOfArticlesOnWebsite, _) =>
        match err with
        | some err => (([], some err), w1)
        | none => ((indexOfArticlesOnWebsite, none), w1)

/-! ## State store, load side (`private.go`, `fetchPublishedArticles`) -/

/-- The tail of `fetchPublishedArticles` both backends share: unmarshal
`filedata` into `publishedArticles`. -/
def fetchPublishedArticles.unmarshal {σ Post : Type} (env : Collaborators σ Post)
    (filedata : String) (w : σ) : (List (PublishedArticle Post) × Option Error) × σ :=
  match env.unmarshalPublished filedata with
  | (publishedArticles, some err) => ((publishedArticles, some err), w)
  | (publishedArticles, none) => ((publishedArticles, none), w)

/-- Go `fetchPublishedArticles`. -/
def fetchPublishedArticles {σ Post : Type} (env : Collaborators σ Post) (c : Config)
    (w : σ) : (List (PublishedArticle Post) × Option Error) × σ :=
  let publishedArticles : List (PublishedArticle Post) := []
  if c.StorageType = File ∧ c.StorageFile.utf8ByteSize > 0 then
    match env.ReadFile c.StorageFile w with
    | (.error err, w1) => ((publishedArticles, some err), w1)
    | (.ok filedata, w1) => fetchPublishedArticles.unmarshal env filedata w1
  else
    match env.DownloadContents c.GithubPersonalToken c.GithubStatusRepoOwner
        c.GithubStatusRepo "status.json" "main" w with
    | (.error err, w1) =>
      if strings.Contains err "No file named" then ((publishedArticles, none), w1)
      else ((publishedArticles, some err), w1)
    | (.ok rc, w1) =>
      match ioutil.ReadAll rc with
      | (_, some err) => ((publishedArticles, some err), w1)
      | (filedata, none) => fetchPublishedArticles.unmarshal env filedata w1

/-! ## State store, save side (`private.go`, `updateStatusRepository`) -/

/-- Go `updateStatusRepository`. -/
def updateStatusRepository {σ Post : Type} (env : Collaborators σ Post)
    (PublishedArticles : List (PublishedArticle Post)) (c : Config) (w : σ) :
    Option Error × σ :=
  match env.MarshalIndent PublishedArticles with
  | (_, some err) => (some err, w)
  | (filebytes, none) =>
    let filebytesSting := filebytes
    if c.StorageType = File ∧ c.StorageFile.utf8ByteSize > 0 then
      match env.WriteFile c.StorageFile filebytes 0o644 w with
      | (some err, w1) => (some err, w1)
      | (none, w1) => (none, w1)
    else
      match env.GetBranch c.GithubPersonalToken c.GithubStatusRepoOwner
          c.GithubStatusRepo "main" w with
      | (.error err, w1) => (some err, w1)
      | (.ok branch, w1) =>
        match env.CreateBlob c.GithubPersonalToken c.GithubStatusRepoOwner
            c.GithubStatusRepo filebytesSting w1 with
        | (.error err, w2) => (some err, w2)
        | (.ok blobSHA, w2) =>
          match env.CreateTree c.GithubPersonalToken c.GithubStatusRepoOwner
              c.GithubStatusRepo branch.TreeSHA
              [{ Path := "status.json", Mode := "100644", Type_ := "blob", SHA := blobSHA }]
              w2 with
          | (.error err, w3) => (some err, w3)
          | (.ok tree, w3) =>
            match env.CreateCommit c.GithubPersonalToken c.GithubStatusRepoOwner
                c.GithubStatusRepo branch.CommitSHA tree "update the medium content" w3 with
            | (.error err, w4) => (some err, w4)
            | (.ok newCommitSHA, w4) =>
              match env.UpdateRef c.GithubPersonalToken c.GithubStatusRepoOwner
                  c.GithubStatusRepo "refs/heads/main" newCommitSHA false w4 with
              | (some err, w5) => (some err, w5)
              | (none, w5) => (none, w5)

/-! ## Configuration (`private.go`, `getconfig`) -/

/-- Go `getconfig`.  On a load failure the zero `Config{}` is returned. -/
def getconfig {σ Post : Type} (env : Collaborators σ Post) (filename : String) (w : σ) :
    (Config × Option Error) × σ :=
  match (if filename ≠ "" then env.godotenvLoad filename w else (none, w)) with
  | (some err, w1) =>
    (({ StorageType := 0, StorageFile := "", MediumEndpointPrefix := "",
        MediumBearerToken := "", WebsiteJSONIndexURL := "", GithubPersonalToken := "",
        GithubStatusRepoOwner := "", GithubStatusRepo := "", MediumUser := none },
      some err), w1)
  | (none, w1) =>
    let config : Config :=
      { StorageType := 0
        StorageFile := env.Getenv "STORAGE_FILE_PATH" w1
        MediumEndpointPrefix := env.Getenv "MEDIUM_ENDPOINT_PREFIX" w1
        MediumBearerToken := env.Getenv "MEDIUM_BEARER_TOKEN" w1
        WebsiteJSONIndexURL := env.Getenv "WEBSITE_JSON_INDEX_URL" w1
        GithubPersonalToken := env.Getenv "GITHUB_PERSONAL_TOKEN" w1
        GithubStatusRepoOwner := env.Getenv "GITHUB_STATUS_REPO_OWNER" w1
        GithubStatusRepo := env.Getenv "GITHUB_STATUS_REPO" w1
        MediumUser := none }
    let config : Config :=
      if config.MediumEndpointPrefix = "" then
        { config with MediumEndpointPrefix := "https://api.medium.com/v1" }
      else config
    let config : Config :=
      if env.Getenv "STORAGE_TYPE" w1 = "FILE" then { config with StorageType := File }
      else { config with StorageType := Github }
    ((config, none), w1)

/-! ## Run orchestrator (`public.go`, `Do`) -/

/-- The `for _, article := range articlesThatNeedPostedToMedium` loop of `Do`.
It returns, next to the final value of `publishedArticles`, one pair per
iteration: the entry and the error `postArticleToMedium` returned for it (the
loop logs `posting error` for `some`, `successfully posted` for `none`).
`none` is a panic inside an iteration. -/
def Do.publishLoop {σ Post : Type} (env : Collaborators σ Post) (config : Config)
    (mediumClient : Medium) :
    List ArticleIndexItem → List (PublishedArticle Post) → σ →
    Option ((List (ArticleIndexItem × Option Error) × List (PublishedArticle Post)) × σ)
  | [], publishedArticles, w => some (([], publishedArticles), w)
  | article :: rest, publishedArticles, w =>
    match postArticleToMedium env config article publishedArticles mediumClient w with
    | none => none
    | some ((err, publishedArticles1), w1) =>
      match Do.publishLoop env config mediumClient rest publishedArticles1 w1 with
      | none => none
      | some ((attempts, publishedArticles2), w2) =>
        some (((article, err) :: attempts, publishedArticles2), w2)

/-- How a run of `Do` ends. -/
inductive Exit where
  | fatal (err : Error)
  | panic
  | success
  deriving DecidableEq, Repr

/-- What a run of `Do` did: how it ended, the publish attempts it made (in
order, each with the error returned), the argument of its call of
`updateStatusRepository` (`none` when the call was not reached), and the world
it left. -/
structure Run (σ Post : Type) where
  exit : Exit
  attempts : List (ArticleIndexItem × Option Error)
  saved : Option (List (PublishedArticle Post))
  world : σ

/-- Go `Do`; `log.Fatal` ends the run with `Exit.fatal`. -/
def Do {σ Post : Type} (env : Collaborators σ Post) (dotEnvPath : String) (w : σ) :
    Run σ Post :=
  match getconfig env dotEnvPath w with
  | ((_, some err), w1) => ⟨.fatal err, [], none, w1⟩
  | ((config, none), w1) =>
    match fetchPublishedArticles env config w1 with
    | ((_, some err), w2) => ⟨.fatal err, [], none, w2⟩
    | ((publishedArticles, none), w2) =>
      match fetchArticleIndexFromSite env config w2 with
      | ((_, some err), w3) => ⟨.fatal err, [], none, w3⟩
      | ((indexOfArticlesOnWebsite, none), w3) =>
        let articlesThatNeedPostedToMedium :=
          eliminateArticlesThatHaveAlreadyBeenPosted publishedArticles indexOfArticlesOnWebsite
        let mediumClient : Medium := { AccessToken := config.MediumBearerToken }
        match env.GetUser mediumClient "" w3 with
        | (.error err, w4) => ⟨.fatal err, [], none, w4⟩
        | (.ok user, w4) =>
          let config : Config := { config with MediumUser := some user }
          match Do.publishLoop env config mediumClient articlesThatNeedPostedToMedium
              publishedArticles w4 with
          | none => ⟨.panic, [], none, w4⟩
          | some ((attempts, publishedArticles1), w5) =>
            match updateStatusRepository env publishedArticles1 config w5 with
            | (some err, w6) => ⟨.fatal err, attempts, some publishedArticles1, w6⟩
            | (none, w6) => ⟨.success, attempts, some publishedArticles1, w6⟩

/-! ## A small concrete world -/

/-- A scripted world over `Post := String`.  Its state is the list of answers
the sink still has to give: `true` accepts the next post, `false` rejects it,
and an exhausted script accepts.  A page's body is its own URL, except that the
URL `down` cannot be reached and the index URL serves an HTML error page; the
body `garbage` is not an article, and only the body `[]` is an index (the empty
one).  The remote store has no
`status.json`. -/
def scripted : Collaborators (List Bool) String where
  Get := fun url w =>
    if url = "down" then (.error "connection refused", w)
    else if url = "https://example.com/index.json" then
      (.ok { Body := { data := "<html>Service Unavailable</html>", err := none } }, w)
    else (.ok { Body := { data := url, err := none } }, w)
  unmarshalArticle := fun body =>
    if body = "garbage" then
      ({ Title := "", ContentFormat := "", Content := "", CanonicalURL := "", Tags := [] },
        some "invalid character 'g' looking for beginning of value")
    else
      ({ Title := body, ContentFormat := "html", Content := body,
         CanonicalURL := "https://example.com/" ++ body, Tags := [] }, none)
  unmarshalIndex := fun body =>
    if body = "[]" then ([], none)
    else ([], some "invalid character '<' looking for beginning of value")
  unmarshalPublished := fun body =>
    if body = "[]" then ([], none)
    else ([], some "unexpected end of JSON input")
  MarshalIndent := fun _ => ("[]", none)
  GetUser := fun _ _ w => (.ok { ID := "user-1" }, w)
  CreatePost := fun _ o w =>
    match w with
    | false :: rest => (.error "401 Unauthorized", rest)
    | true :: rest => (.ok ("post of " ++ o.Title), rest)
    | [] => (.ok ("post of " ++ o.Title), [])
  Now := fun w => ("2021-03-01 10:00:00 +0000 UTC", w)
  ReadFile := fun _ w => (.error "open: no such file or directory", w)
  WriteFile := fun _ _ _ w => (none, w)
  DownloadContents := fun _ _ _ path _ w => (.error ("No file named " ++ path ++ " found in "), w)
  GetBranch := fun _ _ _ _ w => (.ok { CommitSHA := "c0", TreeSHA := "t0" }, w)
  CreateBlob := fun _ _ _ _ w => (.ok "b1", w)
  CreateTree := fun _ _ _ _ _ w => (.ok "t1", w)
  CreateCommit := fun _ _ _ _ _ _ w => (.ok "c1", w)
  UpdateRef := fun _ _ _ _ _ _ w => (none, w)
  godotenvLoad := fun _ w => (none, w)
  Getenv := fun key _ =>
    if key = "WEBSITE_JSON_INDEX_URL" then "https://example.com/index.json" else ""

/-- A configuration for the scripted world: remote backend, user known. -/
def scriptedConfig : Config :=
  { StorageType := Github, StorageFile := "", MediumEndpointPrefix := "https://api.medium.com/v1",
    MediumBearerToken := "token",
    WebsiteJSONIndexURL := "https://example.com/index.json", GithubPersonalToken := "gh",
    GithubStatusRepoOwner := "owner", GithubStatusRepo := "repo",
    MediumUser := some { ID := "user-1" } }

/-- The entries of a list of publish attempts whose attempt returned no error. -/
def succeeded (attempts : List (ArticleIndexItem × Option Error)) : List ArticleIndexItem :=
  (attempts.filter (fun x => x.2.isNone)).map Prod.fst

/-- The scripted world with a remote store that cannot be reached. -/
def scriptedStoreDown : Collaborators (List Bool) String :=
  { scripted with
    DownloadContents := fun _ _ _ _ _ w => (.error "503 Service Unavailable", w) }

/-- The scripted world with the index at the unreachable URL `down`. -/
def scriptedIndexDown : Collaborators (List Bool) String :=
  { scripted with
    Getenv := fun key _ => if key = "WEBSITE_JSON_INDEX_URL" then "down" else "" }

/-- The scripted world with an index of three entries at the URL `index`; the
page of the second entry cannot be reached. -/
def scriptedThree : Collaborators (List Bool) String :=
  { scripted with
    Getenv := fun key _ => if key = "WEBSITE_JSON_INDEX_URL" then "index" else ""
    unmarshalIndex := fun body =>
      if body = "index" then ([⟨"a", "1"⟩, ⟨"down", "2"⟩, ⟨"c", "3"⟩], none)
      else ([], some "unexpected end of JSON input") }

/-- The scripted world configured for the local file backend, with an empty
record list stored at `/var/status.json`. -/
def scriptedFile : Collaborators (List Bool) String :=
  { scripted with
    Getenv := fun key _ =>
      if key = "STORAGE_TYPE" then "FILE"
      else if key = "STORAGE_FILE_PATH" then "/var/status.json"
      else if key = "WEBSITE_JSON_INDEX_URL" then "index"
      else ""
    ReadFile := fun path w =>
      if path = "/var/status.json" then (.ok "[]", w)
      else (.error "open: no such file or directory", w) }

/-- The list `attempts` is the record of the calls of `postArticleToMedium`
that lead from the records `P` and the world `w` to the records `U` and the
world `w1`: its entries are the index entries the calls were made for, in
order, each call being made on the records and in the world the call before
it left, and each entry carrying the error its call returned. -/
def PublishTrace {σ Post : Type} (env : Collaborators σ Post) (c : Config) (mc : Medium) :
    List (ArticleIndexItem × Option Error) → List (PublishedArticle Post) → σ →
    List (PublishedArticle Post) → σ → Prop
  | [], P, w, U, w1 => U = P ∧ w1 = w
  | (a, err) :: rest, P, w, U, w1 =>
    ∃ P0 w0, postArticleToMedium env c a P mc w = some ((err, P0), w0) ∧
      PublishTrace env c mc rest P0 w0 U w1

/-! ## Reconciler: lemmas -/

theorem found_eq_false_iff {Post : Type} (id : String) (P : List (PublishedArticle Post)) :
    eliminateArticlesThatHaveAlreadyBeenPosted.found id P = false ↔ ∀ p ∈ P, p.ID ≠ id := by
  induction P with
  | nil => simp [eliminateArticlesThatHaveAlreadyBeenPosted.found]
  | cons p ps ih =>
    by_cases h : p.ID = id
    · simp [eliminateArticlesThatHaveAlreadyBeenPosted.found, h]
    · simp [eliminateArticlesThatHaveAlreadyBeenPosted.found, h, ih]

theorem loop_eq_append_workSetSpec {Post : Type} (P : List (PublishedArticle Post))
    (C acc : List ArticleIndexItem) :
    eliminateArticlesThatHaveAlreadyBeenPosted.loop P C acc = acc ++ workSetSpec P C := by
  induction C generalizing acc with
  | nil => simp [eliminateArticlesThatHaveAlreadyBeenPosted.loop, workSetSpec]
  | cons a rest ih =>
    unfold eliminateArticlesThatHaveAlreadyBeenPosted.loop
    by_cases hid : a.ID = ""
    · simp [hid, ih, workSetSpec]
    · cases hf : eliminateArticlesThatHaveAlreadyBeenPosted.found a.ID P with
      | false =>
        have hall := (found_eq_false_iff a.ID P).1 hf
        have hkeep : (a.ID ≠ "" ∧ ∀ p ∈ P, p.ID ≠ a.ID) := ⟨hid, hall⟩
        simp only [hid, if_false, Bool.not_false, if_true, ih, workSetSpec]
        rw [List.filter_cons_of_pos (by simpa using hkeep)]
        simp
      | true =>
        have hdrop : ¬ (a.ID ≠ "" ∧ ∀ p ∈ P, p.ID ≠ a.ID) := by
          intro hk
          have := (found_eq_false_iff a.ID P).2 hk.2
          simp [hf] at this
        simp only [hid, if_false, Bool.not_true, ih, workSetSpec]
        rw [List.filter_cons_of_neg (by simpa using hdrop)]
        simp

theorem eliminate_eq_workSetSpec {Post : Type} (P : List (PublishedArticle Post))
    (C : List ArticleIndexItem) :
    eliminateArticlesThatHaveAlreadyBeenPosted P C = workSetSpec P C := by
  simp [eliminateArticlesThatHaveAlreadyBeenPosted, loop_eq_append_workSetSpec]

theorem mem_eliminate_iff {Post : Type} (P : List (PublishedArticle Post))
    (C : List ArticleIndexItem) (a : ArticleIndexItem) :
    a ∈ eliminateArticlesThatHaveAlreadyBeenPosted P C ↔
      a ∈ C ∧ a.ID ≠ "" ∧ ∀ p ∈ P, p.ID ≠ a.ID := by
  rw [eliminate_eq_workSetSpec, workSetSpec, List.mem_filter]
  simp

/-! ## Reconciler: the claims -/

/-- C1. For all prior records `P` and index entries `C`, the work set
`eliminateArticlesThatHaveAlreadyBeenPosted P C` is `C` filtered, in order, to
exactly the entries whose id is non-empty and differs from the id of every
record of `P`. -/
theorem eliminate_eq_filter {Post : Type} (P : List (PublishedArticle Post))
    (C : List ArticleIndexItem) :
    eliminateArticlesThatHaveAlreadyBeenPosted P C =
      C.filter (fun a => decide (a.ID ≠ "" ∧ ∀ p ∈ P, p.ID ≠ a.ID)) :=
  eliminate_eq_workSetSpec P C

/-- C2. No entry of the work set has the id of a record of `P`, and no entry of
it has an empty id. -/
theorem eliminate_excludes_posted_and_empty {Post : Type} (P : List (PublishedArticle Post))
    (C : List ArticleIndexItem) (a : ArticleIndexItem)
    (ha : a ∈ eliminateArticlesThatHaveAlreadyBeenPosted P C) :
    a.ID ≠ "" ∧ ∀ p ∈ P, p.ID ≠ a.ID :=
  ((mem_eliminate_iff P C a).1 ha).2

/-- Witness for C2: scenario B of the specification. -/
theorem eliminate_excludes_posted_and_empty_witness :
    (⟨"b", "2"⟩ : ArticleIndexItem) ∈ eliminateArticlesThatHaveAlreadyBeenPosted
        [(⟨"u", "1", "t", "r"⟩ : PublishedArticle String)] [⟨"a", "1"⟩, ⟨"b", "2"⟩] ∧
      ((⟨"b", "2"⟩ : ArticleIndexItem).ID ≠ "" ∧
        ∀ p ∈ [(⟨"u", "1", "t", "r"⟩ : PublishedArticle String)],
          p.ID ≠ (⟨"b", "2"⟩ : ArticleIndexItem).ID) :=
  ⟨by decide, eliminate_excludes_posted_and_empty
    [(⟨"u", "1", "t", "r"⟩ : PublishedArticle String)] [⟨"a", "1"⟩, ⟨"b", "2"⟩] ⟨"b", "2"⟩
    (by decide)⟩

/-- C3. The work set is a subsequence of the index: its entries are entries of
`C`, unmodified, in the relative order they have in `C`. -/
theorem eliminate_sublist {Post : Type} (P : List (PublishedArticle Post))
    (C : List ArticleIndexItem) :
    List.Sublist (eliminateArticlesThatHaveAlreadyBeenPosted P C) C := by
  rw [eliminate_eq_workSetSpec, workSetSpec]
  exact List.filter_sublist C

/-! ## Publisher driver: lemmas -/

/-- One call of `postArticleToMedium` with a known user either returns an error
and leaves the records alone, or returns no error and appends one record
carrying the entry's id. -/
theorem postArticleToMedium_cases {σ Post : Type} (env : Collaborators σ Post) (c : Config)
    (u : User) (a : ArticleIndexItem) (acc : List (PublishedArticle Post)) (mc : Medium)
    (w : σ) (hu : c.MediumUser = some u) :
    (∃ e w', postArticleToMedium env c a acc mc w = some ((some e, acc), w')) ∨
    (∃ r w', r.ID = a.ID ∧ postArticleToMedium env c a acc mc w = some ((none, acc ++ [r]), w')) := by
  unfold postArticleToMedium
  rcases hget : env.Get a.URL w with ⟨_ | resp, w1⟩
  · exact Or.inl ⟨_, _, rfl⟩
  · simp only []
    rcases hread : ioutil.ReadAll resp.Body with ⟨data, _ | e⟩
    · simp only []
      rcases hparse : env.unmarshalArticle data with ⟨article, _ | e⟩
      · simp only [hu]
        split
        · exact Or.inl ⟨_, _, rfl⟩
        · exact Or.inr ⟨_, _, rfl, rfl⟩
      · exact Or.inl ⟨_, _, rfl⟩
    · exact Or.inl ⟨_, _, rfl⟩

/-- A failed call of `postArticleToMedium` returns the records it was given. -/
theorem postArticleToMedium_error_keeps {σ Post : Type} (env : Collaborators σ Post)
    (c : Config) (a : ArticleIndexItem) (acc acc' : List (PublishedArticle Post))
    (mc : Medium) (w w' : σ) (err : Error)
    (h : postArticleToMedium env c a acc mc w = some ((some err, acc'), w')) : acc' = acc := by
  unfold postArticleToMedium at h
  rcases hget : env.Get a.URL w with ⟨_ | resp, w1⟩
  · simp only [hget, Option.some.injEq, Prod.mk.injEq] at h
    exact h.1.2.symm
  · simp only [hget] at h
    rcases hread : ioutil.ReadAll resp.Body with ⟨data, _ | e⟩
    · simp only [hread] at h
      rcases hparse : env.unmarshalArticle data with ⟨article, _ | e⟩
      · simp only [hparse] at h
        split at h
        · simp at h
        · split at h
          · simp only [Option.some.injEq, Prod.mk.injEq] at h
            exact h.1.2.symm
          · simp at h
      · simp only [hparse, Option.some.injEq, Prod.mk.injEq] at h
        exact h.1.2.symm
    · simp only [hread, Option.some.injEq, Prod.mk.injEq] at h
      exact h.1.2.symm

/-- The publish loop with a known user returns; its records are the ones it was
given followed by new ones, one per successful attempt, in order. -/
theorem publishLoop_spec {σ Post : Type} (env : Collaborators σ Post) (c : Config)
    (u : User) (mc : Medium) (hu : c.MediumUser = some u) (W : List ArticleIndexItem) :
    ∀ (P : List (PublishedArticle Post)) (w : σ),
      ∃ attempts news w', Do.publishLoop env c mc W P w = some ((attempts, P ++ news), w') ∧
        attempts.map Prod.fst = W ∧
        news.map (fun r => r.ID) = (succeeded attempts).map (fun e => e.ID) := by
  induction W with
  | nil =>
    intro P w
    exact ⟨[], [], w, by simp [Do.publishLoop], rfl, rfl⟩
  | cons a rest ih =>
    intro P w
    rcases postArticleToMedium_cases env c u a P mc w hu with ⟨e, w1, h1⟩ | ⟨r, w1, hr, h1⟩
    · obtain ⟨attempts, news, w2, h2, hfst, hids⟩ := ih P w1
      refine ⟨(a, some e) :: attempts, news, w2, ?_, ?_, ?_⟩
      · simp [Do.publishLoop, h1, h2]
      · simp [hfst]
      · simpa [succeeded] using hids
    · obtain ⟨attempts, news, w2, h2, hfst, hids⟩ := ih (P ++ [r]) w1
      refine ⟨(a, none) :: attempts, r :: news, w2, ?_, ?_, ?_⟩
      · simp [Do.publishLoop, h1, h2]
      · simp [hfst]
      · simp only [succeeded] at hids
        simp [succeeded, hr, hids]

theorem succeeded_sublist (attempts : List (ArticleIndexItem × Option Error)) :
    List.Sublist (succeeded attempts) (attempts.map Prod.fst) := by
  unfold succeeded
  exact (List.filter_sublist attempts).map Prod.fst

theorem mem_succeeded_iff (attempts : List (ArticleIndexItem × Option Error))
    (e : ArticleIndexItem) : e ∈ succeeded attempts ↔ (e, none) ∈ attempts := by
  unfold succeeded
  constructor
  · intro h
    obtain ⟨⟨e', o⟩, hx, he⟩ := List.mem_map.1 h
    obtain ⟨hmem, hnone⟩ := List.mem_filter.1 hx
    cases o with
    | none => simpa using he ▸ hmem
    | some _ => simp at hnone
  · intro h
    exact List.mem_map.2 ⟨(e, none), List.mem_filter.2 ⟨h, rfl⟩, rfl⟩

theorem succeeded_eq_of_all_none (attempts : List (ArticleIndexItem × Option Error))
    (h : ∀ x ∈ attempts, x.2 = none) : succeeded attempts = attempts.map Prod.fst := by
  unfold succeeded
  rw [List.filter_eq_self.2]
  intro x hx
  simp [h x hx]

/-- After the loop, an entry of the old work set is in the new work set exactly
when none of the new records carries its id. -/
theorem mem_eliminate_append_iff {Post : Type} (P news : List (PublishedArticle Post))
    (C : List ArticleIndexItem) (e : ArticleIndexItem)
    (he : e ∈ eliminateArticlesThatHaveAlreadyBeenPosted P C) :
    e ∈ eliminateArticlesThatHaveAlreadyBeenPosted (P ++ news) C ↔
      e.ID ∉ news.map (fun r => r.ID) := by
  obtain ⟨hC, hne, hP⟩ := (mem_eliminate_iff P C e).1 he
  rw [mem_eliminate_iff]
  constructor
  · rintro ⟨_, _, hall⟩ hmem
    obtain ⟨r, hr, hid⟩ := List.mem_map.1 hmem
    exact hall r (List.mem_append.2 (Or.inr hr)) hid
  · intro hnot
    refine ⟨hC, hne, ?_⟩
    intro p hp
    rcases List.mem_append.1 hp with hp | hp
    · exact hP p hp
    · intro hid
      exact hnot (List.mem_map.2 ⟨p, hp, hid⟩)

/-! ## Publisher driver: the claims -/

/-- C4. With the user known (as `Do` has it when the loop starts), the publish
loop over a work set `W` started from the prior records `P` returns, whatever
the collaborators answer; the records it ends with are `P` followed by new
records, one per entry whose attempt returned no error, in work-set order and
carrying that entry's id, and nothing for the entries whose attempt failed. -/
theorem publishLoop_records {σ Post : Type} (env : Collaborators σ Post) (c : Config)
    (u : User) (mc : Medium) (P : List (PublishedArticle Post)) (W : List ArticleIndexItem)
    (w : σ) (hu : c.MediumUser = some u) :
    ∃ attempts news w', Do.publishLoop env c mc W P w = some ((attempts, P ++ news), w') ∧
      attempts.map Prod.fst = W ∧
      news.map (fun r => r.ID) =
        ((attempts.filter (fun x => x.2.isNone)).map Prod.fst).map (fun e => e.ID) :=
  publishLoop_spec env c u mc hu W P w

/-- Witness for C4: two entries, the sink accepts the first and rejects the
second. -/
theorem publishLoop_records_witness :
    scriptedConfig.MediumUser = some { ID := "user-1" } ∧
    ∃ attempts news w',
      Do.publishLoop scripted scriptedConfig { AccessToken := "token" }
        [⟨"a", "1"⟩, ⟨"b", "2"⟩] [⟨"u", "0", "t", "r"⟩] [true, false] =
          some ((attempts, [⟨"u", "0", "t", "r"⟩] ++ news), w') ∧
      attempts.map Prod.fst = [⟨"a", "1"⟩, ⟨"b", "2"⟩] ∧
      news.map (fun r => r.ID) =
        ((attempts.filter (fun x => x.2.isNone)).map Prod.fst).map (fun e => e.ID) :=
  ⟨rfl, publishLoop_records scripted scriptedConfig { ID := "user-1" } { AccessToken := "token" }
    [⟨"u", "0", "t", "r"⟩] [⟨"a", "1"⟩, ⟨"b", "2"⟩] [true, false] rfl⟩

/-- C5. With the user known, the publish loop over the work set of `P` and `C`
returns, and if every attempt of it returned no error then the work set of the
records it ends with and the same index `C` is empty. -/
theorem second_run_has_nothing_to_post {σ Post : Type} (env : Collaborators σ Post)
    (c : Config) (u : User) (mc : Medium) (P : List (PublishedArticle Post))
    (C : List ArticleIndexItem) (w : σ) (hu : c.MediumUser = some u) :
    ∃ attempts U w',
      Do.publishLoop env c mc (eliminateArticlesThatHaveAlreadyBeenPosted P C) P w =
        some ((attempts, U), w') ∧
      ((∀ x ∈ attempts, x.2 = none) → eliminateArticlesThatHaveAlreadyBeenPosted U C = []) := by
  obtain ⟨attempts, news, w', hrun, hfst, hids⟩ :=
    publishLoop_spec env c u mc hu (eliminateArticlesThatHaveAlreadyBeenPosted P C) P w
  refine ⟨attempts, P ++ news, w', hrun, ?_⟩
  intro hall
  rw [succeeded_eq_of_all_none attempts hall, hfst] at hids
  apply List.eq_nil_iff_forall_not_mem.2
  intro e he
  obtain ⟨hC, hne, hU⟩ := (mem_eliminate_iff (P ++ news) C e).1 he
  have hW : e ∈ eliminateArticlesThatHaveAlreadyBeenPosted P C :=
    (mem_eliminate_iff P C e).2
      ⟨hC, hne, fun p hp => hU p (List.mem_append.2 (Or.inl hp))⟩
  have hmem : e.ID ∈ news.map (fun r => r.ID) := by
    rw [hids]
    exact List.mem_map.2 ⟨e, hW, rfl⟩
  obtain ⟨r, hr, hid⟩ := List.mem_map.1 hmem
  exact hU r (List.mem_append.2 (Or.inr hr)) hid

/-- Witness for C5: scenario B's index, the sink accepting. -/
theorem second_run_has_nothing_to_post_witness :
    scriptedConfig.MediumUser = some { ID := "user-1" } ∧
    ∃ attempts U w',
      Do.publishLoop scripted scriptedConfig { AccessToken := "token" }
        (eliminateArticlesThatHaveAlreadyBeenPosted [⟨"u", "1", "t", "r"⟩]
          [⟨"a", "1"⟩, ⟨"b", "2"⟩]) [⟨"u", "1", "t", "r"⟩] [true] =
        some ((attempts, U), w') ∧
      ((∀ x ∈ attempts, x.2 = none) →
        eliminateArticlesThatHaveAlreadyBeenPosted U [⟨"a", "1"⟩, ⟨"b", "2"⟩] = []) :=
  ⟨rfl, second_run_has_nothing_to_post scripted scriptedConfig { ID := "user-1" }
    { AccessToken := "token" } [⟨"u", "1", "t", "r"⟩] [⟨"a", "1"⟩, ⟨"b", "2"⟩] [true] rfl⟩

/-- An article request that fails makes `postArticleToMedium` return the
error of the request and the records it was given. -/
theorem postArticleToMedium_get_error {σ Post : Type} (env : Collaborators σ Post)
    (c : Config) (a : ArticleIndexItem) (acc : List (PublishedArticle Post)) (mc : Medium)
    (w w1 : σ) (err : Error)
    (hget : env.Get a.URL w = (.error err, w1)) :
    postArticleToMedium env c a acc mc w = some ((some err, acc), w1) := by
  simp [postArticleToMedium, hget]

/-- A failed read of the article body makes `postArticleToMedium` return the
error of the read and the records it was given. -/
theorem postArticleToMedium_read_error {σ Post : Type} (env : Collaborators σ Post)
    (c : Config) (a : ArticleIndexItem) (acc : List (PublishedArticle Post)) (mc : Medium)
    (w w1 : σ) (resp : Response) (err : Error)
    (hget : env.Get a.URL w = (.ok resp, w1))
    (hread : resp.Body.err = some err) :
    postArticleToMedium env c a acc mc w = some ((some err, acc), w1) := by
  simp [postArticleToMedium, hget, ioutil.ReadAll, hread]

/-- An article body that does not parse makes `postArticleToMedium` return the
error of the parse and the records it was given. -/
theorem postArticleToMedium_parse_error {σ Post : Type} (env : Collaborators σ Post)
    (c : Config) (a : ArticleIndexItem) (acc : List (PublishedArticle Post)) (mc : Medium)
    (w w1 : σ) (resp : Response) (article : ArticleJSONData) (err : Error)
    (hget : env.Get a.URL w = (.ok resp, w1))
    (hread : resp.Body.err = none)
    (hparse : env.unmarshalArticle resp.Body.data = (article, some err)) :
    postArticleToMedium env c a acc mc w = some ((some err, acc), w1) := by
  simp [postArticleToMedium, hget, ioutil.ReadAll, hread, hparse]

/-- A post the sink rejects makes `postArticleToMedium` return the sink's error,
wrapped with the article's title, and the records it was given. -/
theorem postArticleToMedium_sink_error {σ Post : Type} (env : Collaborators σ Post)
    (c : Config) (u : User) (a : ArticleIndexItem) (acc : List (PublishedArticle Post))
    (mc : Medium) (w w1 w2 : σ) (resp : Response) (article : ArticleJSONData) (err : Error)
    (hu : c.MediumUser = some u)
    (hget : env.Get a.URL w = (.ok resp, w1))
    (hread : resp.Body.err = none)
    (hparse : env.unmarshalArticle resp.Body.data = (article, none))
    (hpost : env.CreatePost mc
      { UserID := u.ID, Title := article.Title, Content := article.Content,
        ContentFormat := article.ContentFormat, Tags := article.Tags,
        CanonicalURL := article.CanonicalURL, PublishStatus := "draft" } w1 =
        (.error err, w2)) :
    postArticleToMedium env c a acc mc w =
      some ((some ("error when posting article " ++ article.Title ++ ": " ++ err), acc),
        w2) := by
  simp [postArticleToMedium, hget, ioutil.ReadAll, hread, hparse, hu, hpost]

/-- What the publish loop returns is the record of its calls of
`postArticleToMedium`, one per entry of the work set. -/
theorem publishLoop_trace {σ Post : Type} (env : Collaborators σ Post) (c : Config)
    (mc : Medium) (W : List ArticleIndexItem) :
    ∀ (P : List (PublishedArticle Post)) (w : σ)
      (attempts : List (ArticleIndexItem × Option Error)) (U : List (PublishedArticle Post))
      (w1 : σ),
      Do.publishLoop env c mc W P w = some ((attempts, U), w1) →
        PublishTrace env c mc attempts P w U w1 ∧ attempts.map Prod.fst = W := by
  induction W with
  | nil =>
    intro P w attempts U w1 h
    simp only [Do.publishLoop, Option.some.injEq, Prod.mk.injEq] at h
    obtain ⟨⟨rfl, rfl⟩, rfl⟩ := h
    exact ⟨⟨rfl, rfl⟩, rfl⟩
  | cons a rest ih =>
    intro P w attempts U w1 h
    unfold Do.publishLoop at h
    rcases hstep : postArticleToMedium env c a P mc w with _ | ⟨⟨err, P0⟩, w0⟩
    · simp [hstep] at h
    · simp only [hstep] at h
      rcases hrest : Do.publishLoop env c mc rest P0 w0 with _ | ⟨⟨att, U0⟩, w2⟩
      · simp [hrest] at h
      · simp only [hrest, Option.some.injEq, Prod.mk.injEq] at h
        obtain ⟨⟨rfl, rfl⟩, rfl⟩ := h
        obtain ⟨htr, hfst⟩ := ih P0 w0 att U0 w2 hrest
        exact ⟨⟨P0, w0, hstep, htr⟩, by simp [hfst]⟩

/-- C6, refuted as stated. The index lists the id `1` twice and nothing is
recorded yet, so both entries are in the work set; the sink accepts the first
and rejects the second.  The run records the id `1`, and the next work set,
computed from the updated records and the same index, is empty: the entry
whose attempt failed is not in it. -/
theorem failed_entry_not_retried_when_id_repeats :
    eliminateArticlesThatHaveAlreadyBeenPosted ([] : List (PublishedArticle String))
        [⟨"a", "1"⟩, ⟨"b", "1"⟩] = [⟨"a", "1"⟩, ⟨"b", "1"⟩] ∧
    Do.publishLoop scripted scriptedConfig { AccessToken := "token" }
        [⟨"a", "1"⟩, ⟨"b", "1"⟩] [] [true, false] =
      some (([(⟨"a", "1"⟩, none),
              (⟨"b", "1"⟩, some "error when posting article b: 401 Unauthorized")],
             [⟨"https://example.com/a", "1", "2021-03-01 10:00:00 +0000 UTC", "post of a"⟩]),
            []) ∧
    (⟨"b", "1"⟩ : ArticleIndexItem) ∉ eliminateArticlesThatHaveAlreadyBeenPosted
        [(⟨"https://example.com/a", "1", "2021-03-01 10:00:00 +0000 UTC", "post of a"⟩ :
          PublishedArticle String)]
        [⟨"a", "1"⟩, ⟨"b", "1"⟩] := by
  refine ⟨by decide, by decide, by decide⟩

/-- C6, amended. A publish attempt fails by one of four causes: the article
request fails, the read of its body fails, the body does not parse, or (with
the user known) the sink rejects the post; in each case `postArticleToMedium`
returns an error and the records it was given, unchanged, and in general a
call that returns an error returns the records it was given.  With the user
known, the publish loop over the work set of `P` and `C` returns, its attempts
are the calls of `postArticleToMedium` for the entries of the work set in
order, and an entry whose attempt returned an error is in the work set of the
updated records and the same index `C` exactly when no entry with the same id
had an attempt that returned no error; in particular every failed entry is in
it when the ids of the work set are pairwise distinct. -/
theorem failed_entry_retried {σ Post : Type} (env : Collaborators σ Post) (c : Config)
    (u : User) (mc : Medium) (P : List (PublishedArticle Post)) (C : List ArticleIndexItem)
    (w : σ) (hu : c.MediumUser = some u) :
    ((∀ (e : ArticleIndexItem) (acc : List (PublishedArticle Post)) (w0 w1 : σ) (err : Error),
        env.Get e.URL w0 = (.error err, w1) →
          postArticleToMedium env c e acc mc w0 = some ((some err, acc), w1)) ∧
      (∀ (e : ArticleIndexItem) (acc : List (PublishedArticle Post)) (w0 w1 : σ)
          (resp : Response) (err : Error),
        env.Get e.URL w0 = (.ok resp, w1) → resp.Body.err = some err →
          postArticleToMedium env c e acc mc w0 = some ((some err, acc), w1)) ∧
      (∀ (e : ArticleIndexItem) (acc : List (PublishedArticle Post)) (w0 w1 : σ)
          (resp : Response) (article : ArticleJSONData) (err : Error),
        env.Get e.URL w0 = (.ok resp, w1) → resp.Body.err = none →
        env.unmarshalArticle resp.Body.data = (article, some err) →
          postArticleToMedium env c e acc mc w0 = some ((some err, acc), w1)) ∧
      (∀ (e : ArticleIndexItem) (acc : List (PublishedArticle Post)) (w0 w1 w2 : σ)
          (resp : Response) (article : ArticleJSONData) (err : Error),
        env.Get e.URL w0 = (.ok resp, w1) → resp.Body.err = none →
        env.unmarshalArticle resp.Body.data = (article, none) →
        env.CreatePost mc
          { UserID := u.ID, Title := article.Title, Content := article.Content,
            ContentFormat := article.ContentFormat, Tags := article.Tags,
            CanonicalURL := article.CanonicalURL, PublishStatus := "draft" } w1 =
            (.error err, w2) →
          postArticleToMedium env c e acc mc w0 =
            some ((some ("error when posting article " ++ article.Title ++ ": " ++ err),
              acc), w2))) ∧
    (∀ (e : ArticleIndexItem) (acc acc' : List (PublishedArticle Post)) (w0 w1 : σ)
        (err : Error),
        postArticleToMedium env c e acc mc w0 = some ((some err, acc'), w1) → acc' = acc) ∧
    ∃ attempts U w',
      Do.publishLoop env c mc (eliminateArticlesThatHaveAlreadyBeenPosted P C) P w =
        some ((attempts, U), w') ∧
      PublishTrace env c mc attempts P w U w' ∧
      attempts.map Prod.fst = eliminateArticlesThatHaveAlreadyBeenPosted P C ∧
      (∀ e err, (e, some err) ∈ attempts →
        (e ∈ eliminateArticlesThatHaveAlreadyBeenPosted U C ↔
          ∀ e', (e', none) ∈ attempts → e'.ID ≠ e.ID)) ∧
      (((eliminateArticlesThatHaveAlreadyBeenPosted P C).map (fun e => e.ID)).Nodup →
        ∀ e err, (e, some err) ∈ attempts →
          e ∈ eliminateArticlesThatHaveAlreadyBeenPosted U C) := by
  refine ⟨⟨?_, ?_, ?_, ?_⟩, fun e acc acc' w0 w1 err h =>
    postArticleToMedium_error_keeps env c e acc acc' mc w0 w1 err h, ?_⟩
  · intro e acc w0 w1 err hget
    exact postArticleToMedium_get_error env c e acc mc w0 w1 err hget
  · intro e acc w0 w1 resp err hget hread
    exact postArticleToMedium_read_error env c e acc mc w0 w1 resp err hget hread
  · intro e acc w0 w1 resp article err hget hread hparse
    exact postArticleToMedium_parse_error env c e acc mc w0 w1 resp article err hget hread
      hparse
  · intro e acc w0 w1 w2 resp article err hget hread hparse hpost
    exact postArticleToMedium_sink_error env c u e acc mc w0 w1 w2 resp article err hu hget
      hread hparse hpost
  obtain ⟨attempts, news, w', hrun, hfst, hids⟩ :=
    publishLoop_spec env c u mc hu (eliminateArticlesThatHaveAlreadyBeenPosted P C) P w
  have hiff : ∀ e err, (e, some err) ∈ attempts →
      (e ∈ eliminateArticlesThatHaveAlreadyBeenPosted (P ++ news) C ↔
        ∀ e', (e', none) ∈ attempts → e'.ID ≠ e.ID) := by
    intro e err hmem
    have heW : e ∈ eliminateArticlesThatHaveAlreadyBeenPosted P C := by
      rw [← hfst]
      exact List.mem_map.2 ⟨(e, some err), hmem, rfl⟩
    rw [mem_eliminate_append_iff P news C e heW, hids]
    constructor
    · intro hnot e' he' hid
      exact hnot (List.mem_map.2 ⟨e', (mem_succeeded_iff attempts e').2 he', hid⟩)
    · intro hall hin
      obtain ⟨e', he', hid⟩ := List.mem_map.1 hin
      exact hall e' ((mem_succeeded_iff attempts e').1 he') hid
  refine ⟨attempts, P ++ news, w', hrun,
    (publishLoop_trace env c mc _ P w attempts (P ++ news) w' hrun).1, hfst, hiff, ?_⟩
  intro hnodup e err hmem
  refine (hiff e err hmem).2 ?_
  intro e' he' hid
  have hkeys : (attempts.map (fun x => x.1.ID)).Nodup := by
    have : attempts.map (fun x => x.1.ID) = (attempts.map Prod.fst).map (fun e => e.ID) := by
      simp
    rw [this, hfst]
    exact hnodup
  have := List.inj_on_of_nodup_map hkeys he' hmem hid
  simp at this

/-- Witness for C6, amended: scenario C of the specification.  The index holds
the posted id `1` and the new id `2`; the sink rejects the post of entry `2`,
whose attempt is recorded with the sink's error, the records stay as they
were, and entry `2` is in the next work set. -/
theorem failed_entry_retried_witness :
    scriptedConfig.MediumUser = some { ID := "user-1" } ∧
    postArticleToMedium scripted scriptedConfig ⟨"b", "2"⟩ [⟨"u", "1", "t", "r"⟩]
        { AccessToken := "token" } [false] =
      some ((some "error when posting article b: 401 Unauthorized",
        [⟨"u", "1", "t", "r"⟩]), []) ∧
    postArticleToMedium scripted scriptedConfig ⟨"down", "2"⟩ [⟨"u", "1", "t", "r"⟩]
        { AccessToken := "token" } [false] =
      some ((some "connection refused", [⟨"u", "1", "t", "r"⟩]), [false]) ∧
    postArticleToMedium scripted scriptedConfig ⟨"garbage", "2"⟩ [⟨"u", "1", "t", "r"⟩]
        { AccessToken := "token" } [false] =
      some ((some "invalid character 'g' looking for beginning of value",
        [⟨"u", "1", "t", "r"⟩]), [false]) ∧
    ∃ attempts U w',
      Do.publishLoop scripted scriptedConfig { AccessToken := "token" }
        (eliminateArticlesThatHaveAlreadyBeenPosted [⟨"u", "1", "t", "r"⟩]
          [⟨"a", "1"⟩, ⟨"b", "2"⟩]) [⟨"u", "1", "t", "r"⟩] [false] =
        some ((attempts, U), w') ∧
      PublishTrace scripted scriptedConfig { AccessToken := "token" } attempts
        [⟨"u", "1", "t", "r"⟩] [false] U w' ∧
      attempts.map Prod.fst =
        eliminateArticlesThatHaveAlreadyBeenPosted
          [(⟨"u", "1", "t", "r"⟩ : PublishedArticle String)] [⟨"a", "1"⟩, ⟨"b", "2"⟩] ∧
      (∀ e err, (e, some err) ∈ attempts →
        (e ∈ eliminateArticlesThatHaveAlreadyBeenPosted U [⟨"a", "1"⟩, ⟨"b", "2"⟩] ↔
          ∀ e', (e', none) ∈ attempts → e'.ID ≠ e.ID)) ∧
      (((eliminateArticlesThatHaveAlreadyBeenPosted
            [(⟨"u", "1", "t", "r"⟩ : PublishedArticle String)]
            [⟨"a", "1"⟩, ⟨"b", "2"⟩]).map (fun e => e.ID)).Nodup →
        ∀ e err, (e, some err) ∈ attempts →
          e ∈ eliminateArticlesThatHaveAlreadyBeenPosted U [⟨"a", "1"⟩, ⟨"b", "2"⟩]) :=
  ⟨rfl,
    (failed_entry_retried scripted scriptedConfig { ID := "user-1" } { AccessToken := "token" }
      [⟨"u", "1", "t", "r"⟩] [⟨"a", "1"⟩, ⟨"b", "2"⟩] [false] rfl).1.2.2.2
      ⟨"b", "2"⟩ [⟨"u", "1", "t", "r"⟩] [false] [false] []
      { Body := { data := "b", err := none } }
      { Title := "b", ContentFormat := "html", Content := "b",
        CanonicalURL := "https://example.com/b", Tags := [] }
      "401 Unauthorized" rfl rfl rfl rfl,
    (failed_entry_retried scripted scriptedConfig { ID := "user-1" } { AccessToken := "token" }
      [⟨"u", "1", "t", "r"⟩] [⟨"a", "1"⟩, ⟨"b", "2"⟩] [false] rfl).1.1
      ⟨"down", "2"⟩ [⟨"u", "1", "t", "r"⟩] [false] [false] "connection refused" rfl,
    (failed_entry_retried scripted scriptedConfig { ID := "user-1" } { AccessToken := "token" }
      [⟨"u", "1", "t", "r"⟩] [⟨"a", "1"⟩, ⟨"b", "2"⟩] [false] rfl).1.2.2.1
      ⟨"garbage", "2"⟩ [⟨"u", "1", "t", "r"⟩] [false] [false]
      { Body := { data := "garbage", err := none } }
      { Title := "", ContentFormat := "", Content := "", CanonicalURL := "", Tags := [] }
      "invalid character 'g' looking for beginning of value" rfl rfl rfl,
    (failed_entry_retried scripted scriptedConfig { ID := "user-1" } { AccessToken := "token" }
      [⟨"u", "1", "t", "r"⟩] [⟨"a", "1"⟩, ⟨"b", "2"⟩] [false] rfl).2.2⟩

/-- C7, refuted as stated. Nothing is recorded yet (so the prior ids are
pairwise distinct), the index lists the id `1` twice and the sink accepts both
posts: the updated records carry the id `1` twice. -/
theorem updated_ids_repeat_when_index_id_repeats :
    (([] : List (PublishedArticle String)).map (fun r => r.ID)).Nodup ∧
    Do.publishLoop scripted scriptedConfig { AccessToken := "token" }
        (eliminateArticlesThatHaveAlreadyBeenPosted ([] : List (PublishedArticle String))
          [⟨"a", "1"⟩, ⟨"b", "1"⟩]) [] [true, true] =
      some (([(⟨"a", "1"⟩, none), (⟨"b", "1"⟩, none)],
             [⟨"https://example.com/a", "1", "2021-03-01 10:00:00 +0000 UTC", "post of a"⟩,
              ⟨"https://example.com/b", "1", "2021-03-01 10:00:00 +0000 UTC", "post of b"⟩]),
            []) ∧
    ¬ (([⟨"https://example.com/a", "1", "2021-03-01 10:00:00 +0000 UTC", "post of a"⟩,
         ⟨"https://example.com/b", "1", "2021-03-01 10:00:00 +0000 UTC", "post of b"⟩] :
          List (PublishedArticle String)).map (fun r => r.ID)).Nodup := by
  refine ⟨by decide, by decide, by decide⟩

/-- C7, amended. If the ids of the prior records are pairwise distinct and the
ids of the work set of `P` and `C` are pairwise distinct, then, with the user
known, the publish loop over that work set returns and the ids of the records
it ends with are pairwise distinct, whatever the collaborators answer. -/
theorem updated_ids_nodup {σ Post : Type} (env : Collaborators σ Post) (c : Config)
    (u : User) (mc : Medium) (P : List (PublishedArticle Post)) (C : List ArticleIndexItem)
    (w : σ) (hu : c.MediumUser = some u)
    (hP : (P.map (fun r => r.ID)).Nodup)
    (hW : ((eliminateArticlesThatHaveAlreadyBeenPosted P C).map (fun e => e.ID)).Nodup) :
    ∃ attempts U w',
      Do.publishLoop env c mc (eliminateArticlesThatHaveAlreadyBeenPosted P C) P w =
        some ((attempts, U), w') ∧
      (U.map (fun r => r.ID)).Nodup := by
  obtain ⟨attempts, news, w', hrun, hfst, hids⟩ :=
    publishLoop_spec env c u mc hu (eliminateArticlesThatHaveAlreadyBeenPosted P C) P w
  refine ⟨attempts, P ++ news, w', hrun, ?_⟩
  have hsub : List.Sublist (news.map (fun r => r.ID))
      ((eliminateArticlesThatHaveAlreadyBeenPosted P C).map (fun e => e.ID)) := by
    rw [hids, ← hfst]
    exact (succeeded_sublist attempts).map (fun e => e.ID)
  rw [List.map_append]
  refine List.Nodup.append hP (hW.sublist hsub) ?_
  intro id hidP hidN
  obtain ⟨e, he, rfl⟩ := List.mem_map.1 (hsub.subset hidN)
  obtain ⟨p, hp, hpe⟩ := List.mem_map.1 hidP
  exact ((mem_eliminate_iff P C e).1 he).2.2 p hp hpe

/-- Witness for C7, amended: scenario B's records and index, the sink accepting. -/
theorem updated_ids_nodup_witness :
    scriptedConfig.MediumUser = some { ID := "user-1" } ∧
    (([⟨"u", "1", "t", "r"⟩] : List (PublishedArticle String)).map (fun r => r.ID)).Nodup ∧
    ((eliminateArticlesThatHaveAlreadyBeenPosted
        [(⟨"u", "1", "t", "r"⟩ : PublishedArticle String)]
        [⟨"a", "1"⟩, ⟨"b", "2"⟩]).map (fun e => e.ID)).Nodup ∧
    ∃ attempts U w',
      Do.publishLoop scripted scriptedConfig { AccessToken := "token" }
        (eliminateArticlesThatHaveAlreadyBeenPosted [⟨"u", "1", "t", "r"⟩]
          [⟨"a", "1"⟩, ⟨"b", "2"⟩]) [⟨"u", "1", "t", "r"⟩] [true] =
        some ((attempts, U), w') ∧
      (U.map (fun r => r.ID)).Nodup :=
  ⟨rfl, by decide, by decide,
    updated_ids_nodup scripted scriptedConfig { ID := "user-1" } { AccessToken := "token" }
      [⟨"u", "1", "t", "r"⟩] [⟨"a", "1"⟩, ⟨"b", "2"⟩] [true] rfl (by decide) (by decide)⟩

/-- C8. When the article page is fetched, read and parsed into `article`, the
user is known and the sink accepts the post and returns `result`,
`postArticleToMedium` returns no error and the records it was given followed
by exactly one record, whose id is the index entry's id, whose url is
`article.CanonicalURL`, whose timestamp is the clock's reading and whose
platform response is `result`. -/
theorem postArticleToMedium_success {σ Post : Type} (env : Collaborators σ Post)
    (c : Config) (a : ArticleIndexItem) (publishedArticles : List (PublishedArticle Post))
    (mediumClient : Medium) (w w1 w2 w3 : σ) (resp : Response) (article : ArticleJSONData)
    (user : User) (result : Post) (now : String)
    (hget : env.Get a.URL w = (.ok resp, w1))
    (hread : resp.Body.err = none)
    (hparse : env.unmarshalArticle resp.Body.data = (article, none))
    (huser : c.MediumUser = some user)
    (hpost : env.CreatePost mediumClient
      { UserID := user.ID, Title := article.Title, Content := article.Content,
        ContentFormat := article.ContentFormat, Tags := article.Tags,
        CanonicalURL := article.CanonicalURL, PublishStatus := "draft" } w1 = (.ok result, w2))
    (hnow : env.Now w2 = (now, w3)) :
    postArticleToMedium env c a publishedArticles mediumClient w =
      some ((none, publishedArticles ++
        [{ URL := article.CanonicalURL, ID := a.ID, PublishTimestamp := now,
           MediumPostResponse := result }]), w3) := by
  simp [postArticleToMedium, hget, ioutil.ReadAll, hread, hparse, huser, hpost, hnow]

/-- Witness for C8: the entry's url is `a`, the canonical url of the article
fetched from it is `https://example.com/a`. -/
theorem postArticleToMedium_success_witness :
    postArticleToMedium scripted scriptedConfig ⟨"a", "1"⟩ [⟨"u", "0", "t", "r"⟩]
        { AccessToken := "token" } [true] =
      some ((none, [⟨"u", "0", "t", "r"⟩] ++
        [{ URL := "https://example.com/a", ID := "1",
           PublishTimestamp := "2021-03-01 10:00:00 +0000 UTC",
           MediumPostResponse := "post of a" }]), []) :=
  postArticleToMedium_success scripted scriptedConfig ⟨"a", "1"⟩ [⟨"u", "0", "t", "r"⟩]
    { AccessToken := "token" } [true] [true] [] []
    { Body := { data := "a", err := none } }
    { Title := "a", ContentFormat := "html", Content := "a",
      CanonicalURL := "https://example.com/a", Tags := [] }
    { ID := "user-1" } "post of a" "2021-03-01 10:00:00 +0000 UTC"
    rfl rfl (by decide) rfl rfl rfl

/-! ## Index fetcher -/

/-- A failed request is returned as the error, with the empty index. -/
theorem fetchArticleIndexFromSite_get_error {σ Post : Type} (env : Collaborators σ Post)
    (c : Config) (w w1 : σ) (err : Error)
    (hget : env.Get c.WebsiteJSONIndexURL w = (.error err, w1)) :
    fetchArticleIndexFromSite env c w = (([], some err), w1) := by
  simp [fetchArticleIndexFromSite, hget]

/-- A failed read of the body is returned as the error, with the empty index. -/
theorem fetchArticleIndexFromSite_read_error {σ Post : Type} (env : Collaborators σ Post)
    (c : Config) (w w1 : σ) (resp : Response) (err : Error)
    (hget : env.Get c.WebsiteJSONIndexURL w = (.ok resp, w1))
    (hread : resp.Body.err = some err) :
    fetchArticleIndexFromSite env c w = (([], some err), w1) := by
  simp [fetchArticleIndexFromSite, hget, ioutil.ReadAll, hread]

/-- Once the body is read, the error of the parse is lost: whatever
`json.Unmarshal` returns, the function returns what the destination holds and
no error. -/
theorem fetchArticleIndexFromSite_parse_error_lost {σ Post : Type}
    (env : Collaborators σ Post) (c : Config) (w w1 : σ) (resp : Response)
    (hget : env.Get c.WebsiteJSONIndexURL w = (.ok resp, w1))
    (hread : resp.Body.err = none) :
    fetchArticleIndexFromSite env c w =
      (((env.unmarshalIndex resp.Body.data).1, none), w1) := by
  simp [fetchArticleIndexFromSite, hget, ioutil.ReadAll, hread]

/-- C9, the code at the failing input. The index URL answers with an HTML error
page; the request and the read succeed and `json.Unmarshal` returns an error,
yet `fetchArticleIndexFromSite` returns the empty index and no error, and the
run of `Do` goes on to save and ends in success instead of aborting. -/
theorem fetchArticleIndexFromSite_parse_failure_not_reported :
    scripted.Get scriptedConfig.WebsiteJSONIndexURL [] =
      (.ok { Body := { data := "<html>Service Unavailable</html>", err := none } }, []) ∧
    scripted.unmarshalIndex "<html>Service Unavailable</html>" =
      ([], some "invalid character '<' looking for beginning of value") ∧
    fetchArticleIndexFromSite scripted scriptedConfig [] = (([], none), []) ∧
    (Do scripted "" []).exit = Exit.success ∧
    (Do scripted "" []).saved = some [] := by
  refine ⟨rfl, rfl, rfl, rfl, rfl⟩

/-! ## State store, load side -/

theorem startsWith_iff (s t : List Char) : startsWith s t = true ↔ t <+: s := by
  induction t generalizing s with
  | nil => simp [startsWith]
  | cons d t ih =>
    cases s with
    | nil => simp [startsWith]
    | cons c s =>
      simp only [startsWith, Bool.and_eq_true, beq_iff_eq, ih, List.cons_prefix_cons]
      constructor
      · rintro ⟨h1, h2⟩
        exact ⟨h1.symm, h2⟩
      · rintro ⟨h1, h2⟩
        exact ⟨h1.symm, h2⟩

/-- The double of `strings.Contains` holds exactly when the characters of
`substr` are a contiguous block of those of `s`. -/
theorem strings_Contains_iff (s substr : String) :
    strings.Contains s substr = true ↔ substr.data <:+: s.data := by
  unfold strings.Contains
  generalize s.data = l
  generalize substr.data = t
  induction l with
  | nil =>
    simp only [containsChars, startsWith_iff]
    constructor
    · intro h
      exact h.isInfix
    · intro h
      have := List.eq_nil_of_infix_nil h
      simp [this]
  | cons c l ih =>
    simp only [containsChars, Bool.or_eq_true, startsWith_iff, ih, List.infix_cons_iff]

/-- C10. For a configuration that selects the remote backend (the storage type
is not `File`, or the storage file path is empty), when the download of
`status.json` returns an error: if the message contains `No file named`,
`fetchPublishedArticles` returns the empty record sequence and no error;
otherwise it returns that error. -/
theorem fetchPublishedArticles_remote_download_error {σ Post : Type}
    (env : Collaborators σ Post) (c : Config) (w w1 : σ) (err : Error)
    (hremote : ¬ (c.StorageType = File ∧ c.StorageFile.utf8ByteSize > 0))
    (hdl : env.DownloadContents c.GithubPersonalToken c.GithubStatusRepoOwner
      c.GithubStatusRepo "status.json" "main" w = (.error err, w1)) :
    (strings.Contains err "No file named" = true →
      fetchPublishedArticles env c w = (([], none), w1)) ∧
    (strings.Contains err "No file named" = false →
      fetchPublishedArticles env c w = (([], some err), w1)) := by
  constructor
  · intro h
    simp only [fetchPublishedArticles, if_neg hremote, hdl, h, if_true]
  · intro h
    simp only [fetchPublishedArticles, if_neg hremote, hdl, h]
    simp

/-- Witness for C10: scenario D of the specification, the remote store has no
`status.json`. -/
theorem fetchPublishedArticles_remote_download_error_witness :
    ¬ (scriptedConfig.StorageType = File ∧ scriptedConfig.StorageFile.utf8ByteSize > 0) ∧
    scripted.DownloadContents scriptedConfig.GithubPersonalToken
      scriptedConfig.GithubStatusRepoOwner scriptedConfig.GithubStatusRepo
      "status.json" "main" [] = (.error "No file named status.json found in ", []) ∧
    strings.Contains "No file named status.json found in " "No file named" = true ∧
    (strings.Contains "No file named status.json found in " "No file named" = true →
      fetchPublishedArticles scripted scriptedConfig [] = (([], none), [])) ∧
    (strings.Contains "No file named status.json found in " "No file named" = false →
      fetchPublishedArticles scripted scriptedConfig [] =
        (([], some "No file named status.json found in "), [])) :=
  ⟨by decide, rfl, by decide,
    fetchPublishedArticles_remote_download_error scripted scriptedConfig [] []
      "No file named status.json found in " (by decide) rfl⟩

/-! ## Run orchestrator -/

/-- When the configuration, the prior records, the index and the user are
obtained, `Do` runs the publish loop over the work set of the prior records
and the index, starting from the prior records and with the user set, and
passes the records the loop ends with to `updateStatusRepository`. -/
theorem Do_saves_what_the_loop_returns {σ Post : Type} (env : Collaborators σ Post)
    (dotEnvPath : String) (w w1 w2 w3 w4 : σ) (config : Config)
    (P : List (PublishedArticle Post)) (index : List ArticleIndexItem) (user : User)
    (hcfg : getconfig env dotEnvPath w = ((config, none), w1))
    (hload : fetchPublishedArticles env config w1 = ((P, none), w2))
    (hidx : fetchArticleIndexFromSite env config w2 = ((index, none), w3))
    (huser : env.GetUser { AccessToken := config.MediumBearerToken } "" w3 = (.ok user, w4)) :
    ∃ attempts U w5,
      Do.publishLoop env { config with MediumUser := some user }
        { AccessToken := config.MediumBearerToken }
        (eliminateArticlesThatHaveAlreadyBeenPosted P index) P w4 = some ((attempts, U), w5) ∧
      (Do env dotEnvPath w).attempts = attempts ∧
      (Do env dotEnvPath w).saved = some U := by
  obtain ⟨attempts, news, w5, hrun, -, -⟩ :=
    publishLoop_spec env { config with MediumUser := some user } user
      { AccessToken := config.MediumBearerToken } rfl
      (eliminateArticlesThatHaveAlreadyBeenPosted P index) P w4
  refine ⟨attempts, P ++ news, w5, hrun, ?_, ?_⟩
  · simp only [Do, hcfg, hload, hidx, huser, hrun]
    split <;> rfl
  · simp only [Do, hcfg, hload, hidx, huser, hrun]
    split <;> rfl

/-- If the ids of the prior records are pairwise distinct, the ids of the work
set are pairwise distinct, and the ids of the new records are a subsequence of
the ids of the work set, then the ids of the prior records followed by the new
ones are pairwise distinct. -/
theorem ids_nodup_append {Post : Type} (P news : List (PublishedArticle Post))
    (C : List ArticleIndexItem)
    (hP : (P.map (fun r => r.ID)).Nodup)
    (hW : ((eliminateArticlesThatHaveAlreadyBeenPosted P C).map (fun e => e.ID)).Nodup)
    (hsub : List.Sublist (news.map (fun r => r.ID))
      ((eliminateArticlesThatHaveAlreadyBeenPosted P C).map (fun e => e.ID))) :
    ((P ++ news).map (fun r => r.ID)).Nodup := by
  rw [List.map_append]
  refine List.Nodup.append hP (hW.sublist hsub) ?_
  intro id hidP hidN
  obtain ⟨e, he, rfl⟩ := List.mem_map.1 (hsub.subset hidN)
  obtain ⟨p, hp, hpe⟩ := List.mem_map.1 hidP
  exact ((mem_eliminate_iff P C e).1 he).2.2 p hp hpe

/-- The work set is a subsequence of the index entries with a non-empty id. -/
theorem eliminate_sublist_nonempty {Post : Type} (P : List (PublishedArticle Post))
    (C : List ArticleIndexItem) :
    List.Sublist (eliminateArticlesThatHaveAlreadyBeenPosted P C)
      (C.filter (fun e => decide (e.ID ≠ ""))) := by
  rw [eliminate_eq_workSetSpec, workSetSpec]
  have h : C.filter (fun a => decide (a.ID ≠ "" ∧ ∀ p ∈ P, p.ID ≠ a.ID)) =
      (C.filter (fun e => decide (e.ID ≠ ""))).filter
        (fun a => decide (∀ p ∈ P, p.ID ≠ a.ID)) := by
    rw [List.filter_filter]
    congr 1
    funext a
    simp only [Bool.decide_and, Bool.and_comm]
  rw [h]
  exact List.filter_sublist _

/-- C13. If the ids of the prior records are pairwise distinct and the
non-empty ids of the index are pairwise distinct, then the ids of the work set
are pairwise distinct and, with the user known, the publish loop over the work
set returns and the ids of the records it ends with are pairwise distinct,
whatever the collaborators answer. -/
theorem workSet_and_updated_ids_nodup {σ Post : Type} (env : Collaborators σ Post)
    (c : Config) (u : User) (mc : Medium) (P : List (PublishedArticle Post))
    (C : List ArticleIndexItem) (w : σ) (hu : c.MediumUser = some u)
    (hP : (P.map (fun r => r.ID)).Nodup)
    (hC : ((C.filter (fun e => decide (e.ID ≠ ""))).map (fun e => e.ID)).Nodup) :
    ((eliminateArticlesThatHaveAlreadyBeenPosted P C).map (fun e => e.ID)).Nodup ∧
    ∃ attempts U w',
      Do.publishLoop env c mc (eliminateArticlesThatHaveAlreadyBeenPosted P C) P w =
        some ((attempts, U), w') ∧
      (U.map (fun r => r.ID)).Nodup := by
  have hW : ((eliminateArticlesThatHaveAlreadyBeenPosted P C).map (fun e => e.ID)).Nodup :=
    hC.sublist ((eliminate_sublist_nonempty P C).map (fun e => e.ID))
  refine ⟨hW, ?_⟩
  obtain ⟨attempts, news, w', hrun, hfst, hids⟩ :=
    publishLoop_spec env c u mc hu (eliminateArticlesThatHaveAlreadyBeenPosted P C) P w
  refine ⟨attempts, P ++ news, w', hrun, ids_nodup_append P news C hP hW ?_⟩
  rw [hids, ← hfst]
  exact (succeeded_sublist attempts).map (fun e => e.ID)

/-- Witness for C13: one prior record, an index with an entry without id, an
entry already posted and two new entries; the sink accepts one post and rejects
the other. -/
theorem workSet_and_updated_ids_nodup_witness :
    scriptedConfig.MediumUser = some { ID := "user-1" } ∧
    (([⟨"u", "1", "t", "r"⟩] : List (PublishedArticle String)).map (fun r => r.ID)).Nodup ∧
    ((([⟨"x", ""⟩, ⟨"a", "1"⟩, ⟨"y", ""⟩, ⟨"b", "2"⟩, ⟨"c", "3"⟩] :
        List ArticleIndexItem).filter (fun e => decide (e.ID ≠ ""))).map
          (fun e => e.ID)).Nodup ∧
    (((eliminateArticlesThatHaveAlreadyBeenPosted
        [(⟨"u", "1", "t", "r"⟩ : PublishedArticle String)]
        [⟨"x", ""⟩, ⟨"a", "1"⟩, ⟨"y", ""⟩, ⟨"b", "2"⟩, ⟨"c", "3"⟩]).map
          (fun e => e.ID)).Nodup ∧
    ∃ attempts U w',
      Do.publishLoop scripted scriptedConfig { AccessToken := "token" }
        (eliminateArticlesThatHaveAlreadyBeenPosted [⟨"u", "1", "t", "r"⟩]
          [⟨"x", ""⟩, ⟨"a", "1"⟩, ⟨"y", ""⟩, ⟨"b", "2"⟩, ⟨"c", "3"⟩])
        [⟨"u", "1", "t", "r"⟩] [true, false] = some ((attempts, U), w') ∧
      (U.map (fun r => r.ID)).Nodup) :=
  ⟨rfl, by decide, by decide,
    workSet_and_updated_ids_nodup scripted scriptedConfig { ID := "user-1" }
      { AccessToken := "token" } [⟨"u", "1", "t", "r"⟩]
      [⟨"x", ""⟩, ⟨"a", "1"⟩, ⟨"y", ""⟩, ⟨"b", "2"⟩, ⟨"c", "3"⟩] [true, false] rfl
      (by decide) (by decide)⟩

/-- Fail-fast ordering of `Do`, on the errors its steps return.  Once the
configuration is loaded: if loading the prior records returns an error, or if
they load and fetching the index returns an error, `Do` ends with that error
as a fatal error, having made no publish attempt and no call of
`updateStatusRepository`, in the world the failed step left.  If the prior
records `P`, the index and the user are obtained, then whatever the publish
attempts return, `Do` calls `postArticleToMedium` for every entry of the work
set, in order, then calls `updateStatusRepository` with the records the last
call left, which are `P` followed by one record per successful attempt, and
ends as that call tells: in the world it left, in success when it returned no
error and with its error as a fatal error otherwise. -/
theorem Do_fail_fast {σ Post : Type} (env : Collaborators σ Post) (dotEnvPath : String)
    (w w1 : σ) (config : Config)
    (hcfg : getconfig env dotEnvPath w = ((config, none), w1)) :
    (∀ (P : List (PublishedArticle Post)) (err : Error) (w2 : σ),
      fetchPublishedArticles env config w1 = ((P, some err), w2) →
        (Do env dotEnvPath w).exit = Exit.fatal err ∧
        (Do env dotEnvPath w).attempts = [] ∧
        (Do env dotEnvPath w).saved = none ∧
        (Do env dotEnvPath w).world = w2) ∧
    (∀ (P : List (PublishedArticle Post)) (w2 : σ) (index : List ArticleIndexItem)
        (err : Error) (w3 : σ),
      fetchPublishedArticles env config w1 = ((P, none), w2) →
      fetchArticleIndexFromSite env config w2 = ((index, some err), w3) →
        (Do env dotEnvPath w).exit = Exit.fatal err ∧
        (Do env dotEnvPath w).attempts = [] ∧
        (Do env dotEnvPath w).saved = none ∧
        (Do env dotEnvPath w).world = w3) ∧
    (∀ (P : List (PublishedArticle Post)) (w2 : σ) (index : List ArticleIndexItem)
        (w3 : σ) (user : User) (w4 : σ),
      fetchPublishedArticles env config w1 = ((P, none), w2) →
      fetchArticleIndexFromSite env config w2 = ((index, none), w3) →
      env.GetUser { AccessToken := config.MediumBearerToken } "" w3 = (.ok user, w4) →
        ∃ attempts news w5,
          PublishTrace env { config with MediumUser := some user }
            { AccessToken := config.MediumBearerToken } attempts P w4 (P ++ news) w5 ∧
          attempts.map Prod.fst = eliminateArticlesThatHaveAlreadyBeenPosted P index ∧
          news.map (fun r => r.ID) =
            ((attempts.filter (fun x => x.2.isNone)).map Prod.fst).map (fun e => e.ID) ∧
          (Do env dotEnvPath w).attempts = attempts ∧
          (Do env dotEnvPath w).saved = some (P ++ news) ∧
          (Do env dotEnvPath w).world =
            (updateStatusRepository env (P ++ news)
              { config with MediumUser := some user } w5).2 ∧
          (Do env dotEnvPath w).exit =
            (match (updateStatusRepository env (P ++ news)
                { config with MediumUser := some user } w5).1 with
             | some err => Exit.fatal err
             | none => Exit.success)) := by
  refine ⟨?_, ?_, ?_⟩
  · intro P err w2 hload
    simp [Do, hcfg, hload]
  · intro P w2 index err w3 hload hidx
    simp [Do, hcfg, hload, hidx]
  · intro P w2 index w3 user w4 hload hidx huser
    obtain ⟨attempts, news, w5, hrun, hfst, hids⟩ :=
      publishLoop_spec env { config with MediumUser := some user } user
        { AccessToken := config.MediumBearerToken } rfl
        (eliminateArticlesThatHaveAlreadyBeenPosted P index) P w4
    have htrace := (publishLoop_trace env { config with MediumUser := some user }
      { AccessToken := config.MediumBearerToken } _ P w4 attempts (P ++ news) w5 hrun).1
    refine ⟨attempts, news, w5, htrace, hfst, hids, ?_, ?_, ?_, ?_⟩
    · simp only [Do, hcfg, hload, hidx, huser, hrun]
      split <;> rfl
    · simp only [Do, hcfg, hload, hidx, huser, hrun]
      split <;> rfl
    · simp only [Do, hcfg, hload, hidx, huser, hrun]
      rcases updateStatusRepository env (P ++ news)
        { config with MediumUser := some user } w5 with ⟨_ | err, w6⟩ <;> rfl
    · simp only [Do, hcfg, hload, hidx, huser, hrun]
      rcases updateStatusRepository env (P ++ news)
        { config with MediumUser := some user } w5 with ⟨_ | err, w6⟩ <;> rfl

/-- Instances of `Do_fail_fast`: a run whose remote store cannot be reached, a
run whose index cannot be reached, and a run over three new entries of which
the sink accepts the first, the page of the second cannot be fetched and the
sink rejects the third. -/
theorem Do_fail_fast_witness :
    getconfig scriptedStoreDown "" ([] : List Bool) =
      (((getconfig scriptedStoreDown "" ([] : List Bool)).1.1, none), []) ∧
    ((Do scriptedStoreDown "" ([] : List Bool)).exit = Exit.fatal "503 Service Unavailable" ∧
      (Do scriptedStoreDown "" ([] : List Bool)).attempts = [] ∧
      (Do scriptedStoreDown "" ([] : List Bool)).saved = none ∧
      (Do scriptedStoreDown "" ([] : List Bool)).world = []) ∧
    ((Do scriptedIndexDown "" ([] : List Bool)).exit = Exit.fatal "connection refused" ∧
      (Do scriptedIndexDown "" ([] : List Bool)).attempts = [] ∧
      (Do scriptedIndexDown "" ([] : List Bool)).saved = none ∧
      (Do scriptedIndexDown "" ([] : List Bool)).world = []) ∧
    ((Do scriptedThree "" [true, false]).attempts.map Prod.fst =
        eliminateArticlesThatHaveAlreadyBeenPosted ([] : List (PublishedArticle String))
          [⟨"a", "1"⟩, ⟨"down", "2"⟩, ⟨"c", "3"⟩] ∧
      ∃ news, (Do scriptedThree "" [true, false]).saved = some ([] ++ news) ∧
        news.map (fun r => r.ID) =
          (((Do scriptedThree "" [true, false]).attempts.filter (fun x => x.2.isNone)).map
            Prod.fst).map (fun e => e.ID)) := by
  refine ⟨rfl,
    (Do_fail_fast scriptedStoreDown "" [] [] (getconfig scriptedStoreDown "" []).1.1 rfl).1
      [] "503 Service Unavailable" [] rfl,
    (Do_fail_fast scriptedIndexDown "" [] [] (getconfig scriptedIndexDown "" []).1.1 rfl).2.1
      [] [] [] "connection refused" [] rfl rfl, ?_⟩
  obtain ⟨attempts, news, w5, -, hfst, hids, hatt, hsaved, -, -⟩ :=
    (Do_fail_fast scriptedThree "" [true, false] [true, false]
      (getconfig scriptedThree "" [true, false]).1.1 rfl).2.2
      [] [true, false] [⟨"a", "1"⟩, ⟨"down", "2"⟩, ⟨"c", "3"⟩] [true, false]
      { ID := "user-1" } [true, false] rfl rfl rfl
  rw [hatt]
  exact ⟨hfst, news, hsaved, hids⟩

/-- The run of `Do` over three entries used above, evaluated: all three are
attempted, the second and third fail, the save is called with the first
entry's record alone, and the run ends in success. -/
theorem Do_three_entries :
    (Do scriptedThree "" [true, false]).attempts =
      [(⟨"a", "1"⟩, none), (⟨"down", "2"⟩, some "connection refused"),
       (⟨"c", "3"⟩, some "error when posting article c: 401 Unauthorized")] ∧
    (Do scriptedThree "" [true, false]).saved =
      some [⟨"https://example.com/a", "1", "2021-03-01 10:00:00 +0000 UTC", "post of a"⟩] ∧
    (Do scriptedThree "" [true, false]).exit = Exit.success := by
  refine ⟨by decide, by decide, by decide⟩

/-! ## Backend selection -/

/-- Go `len(s) > 0` holds exactly when `s` is not the empty string. -/
theorem utf8ByteSize_pos_iff (s : String) : s.utf8ByteSize > 0 ↔ s ≠ "" := by
  cases s with
  | mk cs =>
    rw [String.utf8ByteSize_mk, gt_iff_lt, Nat.pos_iff_ne_zero, Ne, String.utf8Len_eq_zero]
    constructor
    · intro h he
      apply h
      have := congrArg String.data he
      simpa using this
    · intro h he
      apply h
      rw [he]

/-- The storage type of a configuration `getconfig` returns without error is
`File` when `STORAGE_TYPE` reads `FILE` and `Github` otherwise. -/
theorem getconfig_StorageType {σ Post : Type} (env : Collaborators σ Post)
    (filename : String) (w w1 : σ) (config : Config)
    (hcfg : getconfig env filename w = ((config, none), w1)) :
    config.StorageType = (if env.Getenv "STORAGE_TYPE" w1 = "FILE" then File else Github) := by
  unfold getconfig at hcfg
  split at hcfg
  · simp at hcfg
  · simp only [Prod.mk.injEq, and_true] at hcfg
    obtain ⟨hc, hw⟩ := hcfg
    subst hw
    rw [← hc]
    split <;> rfl

/-- C12. The configuration `getconfig` returns has storage type `File` exactly
when `STORAGE_TYPE` reads `FILE`, and `Github` for every other value.  For
every configuration `c`: when the storage type is `File` and the storage file
path is not empty, `fetchPublishedArticles` reads the file at that path and
`updateStatusRepository` writes the serialized records to the same path, and
neither calls the remote store; otherwise `fetchPublishedArticles` downloads
`status.json` from branch `main` of the configured repository and
`updateStatusRepository` commits `status.json` to `refs/heads/main` of the same
repository, and neither touches a file. -/
theorem backend_selection {σ Post : Type} (env : Collaborators σ Post) (filename : String)
    (w w1 : σ) (config : Config) (c : Config) (records : List (PublishedArticle Post))
    (w' : σ) (hcfg : getconfig env filename w = ((config, none), w1)) :
    ((config.StorageType = File ↔ env.Getenv "STORAGE_TYPE" w1 = "FILE") ∧
      (env.Getenv "STORAGE_TYPE" w1 ≠ "FILE" → config.StorageType = Github)) ∧
    ((c.StorageType = File ∧ c.StorageFile ≠ "") →
      fetchPublishedArticles env c w' =
        (match env.ReadFile c.StorageFile w' with
         | (.error err, w2) => (([], some err), w2)
         | (.ok filedata, w2) => fetchPublishedArticles.unmarshal env filedata w2) ∧
      updateStatusRepository env records c w' =
        (match env.MarshalIndent records with
         | (_, some err) => (some err, w')
         | (filebytes, none) => env.WriteFile c.StorageFile filebytes 0o644 w')) ∧
    (¬ (c.StorageType = File ∧ c.StorageFile ≠ "") →
      fetchPublishedArticles env c w' =
        (match env.DownloadContents c.GithubPersonalToken c.GithubStatusRepoOwner
            c.GithubStatusRepo "status.json" "main" w' with
         | (.error err, w2) =>
           if strings.Contains err "No file named" then (([], none), w2)
           else (([], some err), w2)
         | (.ok rc, w2) =>
           match ioutil.ReadAll rc with
           | (_, some err) => (([], some err), w2)
           | (filedata, none) => fetchPublishedArticles.unmarshal env filedata w2) ∧
      updateStatusRepository env records c w' =
        (match env.MarshalIndent records with
         | (_, some err) => (some err, w')
         | (filebytes, none) =>
           match env.GetBranch c.GithubPersonalToken c.GithubStatusRepoOwner
               c.GithubStatusRepo "main" w' with
           | (.error err, w2) => (some err, w2)
           | (.ok branch, w2) =>
             match env.CreateBlob c.GithubPersonalToken c.GithubStatusRepoOwner
                 c.GithubStatusRepo filebytes w2 with
             | (.error err, w3) => (some err, w3)
             | (.ok blobSHA, w3) =>
               match env.CreateTree c.GithubPersonalToken c.GithubStatusRepoOwner
                   c.GithubStatusRepo branch.TreeSHA
                   [{ Path := "status.json", Mode := "100644", Type_ := "blob",
                      SHA := blobSHA }] w3 with
               | (.error err, w4) => (some err, w4)
               | (.ok tree, w4) =>
                 match env.CreateCommit c.GithubPersonalToken c.GithubStatusRepoOwner
                     c.GithubStatusRepo branch.CommitSHA tree "update the medium content"
                     w4 with
                 | (.error err, w5) => (some err, w5)
                 | (.ok newCommitSHA, w5) =>
                   env.UpdateRef c.GithubPersonalToken c.GithubStatusRepoOwner
                     c.GithubStatusRepo "refs/heads/main" newCommitSHA false w5)) := by
  have hst := getconfig_StorageType env filename w w1 config hcfg
  refine ⟨⟨?_, ?_⟩, ?_, ?_⟩
  · by_cases h : env.Getenv "STORAGE_TYPE" w1 = "FILE"
    · simp [hst, h]
    · simp only [hst, h, if_false, iff_false]
      decide
  · intro h
    simp [hst, h]
  · intro hfile
    have hguard : c.StorageType = File ∧ c.StorageFile.utf8ByteSize > 0 :=
      ⟨hfile.1, (utf8ByteSize_pos_iff c.StorageFile).2 hfile.2⟩
    constructor
    · simp only [fetchPublishedArticles, if_pos hguard]
    · simp only [updateStatusRepository, if_pos hguard]
      rcases env.MarshalIndent records with ⟨filebytes, _ | err⟩
      · simp only []
        rcases env.WriteFile c.StorageFile filebytes 0o644 w' with ⟨_ | err, w2⟩ <;> rfl
      · rfl
  · intro hremote
    have hguard : ¬ (c.StorageType = File ∧ c.StorageFile.utf8ByteSize > 0) :=
      fun hg => hremote ⟨hg.1, (utf8ByteSize_pos_iff c.StorageFile).1 hg.2⟩
    constructor
    · simp only [fetchPublishedArticles, if_neg hguard]
    · simp only [updateStatusRepository, if_neg hguard]
      rcases env.MarshalIndent records with ⟨filebytes, _ | err⟩
      · simp only []
        rcases env.GetBranch c.GithubPersonalToken c.GithubStatusRepoOwner
          c.GithubStatusRepo "main" w' with ⟨_ | branch, w2⟩
        · rfl
        · simp only []
          rcases env.CreateBlob c.GithubPersonalToken c.GithubStatusRepoOwner
            c.GithubStatusRepo filebytes w2 with ⟨_ | blobSHA, w3⟩
          · rfl
          · simp only []
            rcases env.CreateTree c.GithubPersonalToken c.GithubStatusRepoOwner
              c.GithubStatusRepo branch.TreeSHA
              [{ Path := "status.json", Mode := "100644", Type_ := "blob",
                 SHA := blobSHA }] w3 with ⟨_ | tree, w4⟩
            · rfl
            · simp only []
              rcases env.CreateCommit c.GithubPersonalToken c.GithubStatusRepoOwner
                c.GithubStatusRepo branch.CommitSHA tree "update the medium content"
                w4 with ⟨_ | newCommitSHA, w5⟩
              · rfl
              · simp only []
                rcases env.UpdateRef c.GithubPersonalToken c.GithubStatusRepoOwner
                  c.GithubStatusRepo "refs/heads/main" newCommitSHA false w5 with
                  ⟨_ | err, w6⟩ <;> rfl
      · rfl

/-- Witness for C12: the world configured with `STORAGE_TYPE=FILE` and the
path `/var/status.json`; the load reads that file and the save writes it. -/
theorem backend_selection_witness :
    getconfig scriptedFile "" ([] : List Bool) =
      (((getconfig scriptedFile "" ([] : List Bool)).1.1, none), []) ∧
    ((getconfig scriptedFile "" ([] : List Bool)).1.1.StorageType = File ∧
      (getconfig scriptedFile "" ([] : List Bool)).1.1.StorageFile ≠ "") ∧
    (((getconfig scriptedFile "" ([] : List Bool)).1.1.StorageType = File ↔
        scriptedFile.Getenv "STORAGE_TYPE" [] = "FILE") ∧
      (scriptedFile.Getenv "STORAGE_TYPE" [] ≠ "FILE" →
        (getconfig scriptedFile "" ([] : List Bool)).1.1.StorageType = Github)) ∧
    (fetchPublishedArticles scriptedFile (getconfig scriptedFile "" ([] : List Bool)).1.1 [] =
        (([], none), []) ∧
      updateStatusRepository scriptedFile [⟨"u", "1", "t", "r"⟩]
          (getconfig scriptedFile "" ([] : List Bool)).1.1 [] =
        scriptedFile.WriteFile "/var/status.json" "[]" 0o644 []) :=
  ⟨rfl, by decide,
    (backend_selection scriptedFile "" [] [] (getconfig scriptedFile "" []).1.1
      (getconfig scriptedFile "" []).1.1 [⟨"u", "1", "t", "r"⟩] [] rfl).1,
    (backend_selection scriptedFile "" [] [] (getconfig scriptedFile "" []).1.1
      (getconfig scriptedFile "" []).1.1 [⟨"u", "1", "t", "r"⟩] [] rfl).2.1 (by decide)⟩

end MediumAutoPost
